import Mathlib

/-
Verification of the `marathon-bigip-ctlr` reconciliation controller
(`_f5.py`) against its natural-language specification.

The development shallowly embeds the controller's pure logic:

* the desired-state builder for Marathon (`_create_config_marathon` and its
  helpers `has_partition`, `get_protocol`, `is_label_data_valid`,
  `healthcheck_timeout_calculate`, `healthcheck_sendstring`);
* the reconciliation engine `_apply_config`, modelled per partition as a
  function from the desired config and the observed BIG-IP partition state to
  the ordered trace of Adapter operations it issues;
* the node garbage collector `cleanup_nodes`, modelled as a function from the
  observed node/pool/member state to the trace of modify/delete operations;
* the top-level error routing of `regenerate_config_f5`, modelled with an
  explicit error type and an `Except` result.

Python strings are Lean `String`s; Python ints are Lean `Int`s; Python dicts
that the code iterates in insertion order are association lists
(`List (String × α)`); absent/falsy optional attributes are `Option`s.
String primitives (`lower`, `split`, `lstrip`, `startswith`, `in`) are
re-implemented over `List Char` so that every definition evaluates inside the
kernel.
-/

/-! ### String helpers (kernel-reducible counterparts of the Python string ops) -/

/-- Models Python `str.lower()` (ASCII case folding, which is all the
controller's inputs use). -/
def strLower (s : String) : String := ⟨s.data.map Char.toLower⟩

/-- Splits a character list at every occurrence of `c`; models
`str.split(c)` for a single-character separator. -/
def splitCharList (c : Char) : List Char → List (List Char)
  | [] => [[]]
  | x :: xs =>
      if x == c then [] :: splitCharList c xs
      else
        match splitCharList c xs with
        | [] => [[x]]
        | h :: t => (x :: h) :: t

/-- Models Python `str.split(c)` for a single-character separator `c`. -/
def strSplitOn (c : Char) (s : String) : List String :=
  (splitCharList c s.data).map List.asString

/-- Models Python `str.startswith(pre)`. -/
def strStartsWith (s pre : String) : Bool := List.isPrefixOf pre.data s.data

/-- Contiguous-sublist test on character lists. -/
def listHasInfix (sub : List Char) : List Char → Bool
  | [] => sub.isEmpty
  | c :: rest => List.isPrefixOf sub (c :: rest) || listHasInfix sub rest

/-- Models Python `sub in s` (substring containment). -/
def strContainsSub (s sub : String) : Bool := listHasInfix sub.data s.data

/-- Models Python `str.lstrip(c)` for a single strip character. -/
def lstripChar (c : Char) (s : String) : String := ⟨s.data.dropWhile (· == c)⟩

/-- Parses a non-empty all-digit character list as a decimal `Nat`. -/
def digitsToNatOpt (l : List Char) : Option Nat :=
  if l.isEmpty || !(l.all Char.isDigit) then none
  else some (l.foldl (fun acc c => acc * 10 + (c.toNat - 48)) 0)

/-- Models a successful `ipaddress.ip_address(s)` call on the dotted-quad
IPv4 literals the controller handles: four decimal octets, each at most 255,
at most three digits (no empty components). -/
def is_ip_address (s : String) : Bool :=
  match splitCharList '.' s.data with
  | [a, b, c, d] =>
      [a, b, c, d].all fun p =>
        match digitsToNatOpt p with
        | some n => decide (n ≤ 255) && decide (p.length ≤ 3)
        | none => false
  | _ => false

/-! ### The diffing primitives

`_f5.py` imports `list_diff` and `list_intersect` from the repository's
`common` module, which is not present under `src/`. -/

/-- Modelled from the spec: `list_diff` from the missing `common` module.
Per the spec, set difference is "computed by membership test, not by
position, and output order follows the first operand's order". -/
def list_diff {α : Type} [DecidableEq α] (list1 list2 : List α) : List α :=
  list1.filter fun x => decide (x ∉ list2)

/-- Modelled from the spec: `list_intersect` from the missing `common`
module. Per the spec, intersection is computed by membership test and output
order follows the first operand's order. -/
def list_intersect {α : Type} [DecidableEq α] (list1 list2 : List α) : List α :=
  list1.filter fun x => decide (x ∈ list2)

/-! ### Data model -/

/-- A Marathon health-check spec as carried on an app (the dict fields that
`_f5.py` reads before it augments the record). -/
structure HealthCheck where
  protocol : Option String
  path : Option String
  maxConsecutiveFailures : Int
  intervalSeconds : Int
  timeoutSeconds : Int
deriving DecidableEq

/-- A health-monitor record as stored in the generated config: the original
check fields plus the `name`, `interval`, `timeout` and `send` entries that
`_create_config_marathon` adds (with the protocol lower-cased). -/
structure HealthRecord where
  name : String
  protocol : Option String
  path : Option String
  maxConsecutiveFailures : Int
  intervalSeconds : Int
  timeoutSeconds : Int
  interval : Int
  timeout : Int
  send : Option String
deriving DecidableEq

/-- One backend endpoint of a Marathon app. -/
structure Backend where
  host : String
  port : Int
deriving DecidableEq

/-- The `iapp` sub-dict of a generated service
(`{template, tableName, vars, options}`). -/
structure IAppConfig where
  template : String
  tableName : String
  vars : List (String × String)
  options : List (String × String)
deriving DecidableEq

/-- A `{partition, name}` profile reference. -/
structure Profile where
  partition : String
  name : String
deriving DecidableEq

/-- The `virtual` sub-dict of a generated service. -/
structure VirtualConfig where
  enabled : Bool
  disabled : Bool
  ipProtocol : Option String
  destination : String
  pool : String
  sourceAddressTranslation : String
  profiles : List Profile
deriving DecidableEq

/-- The `pool` sub-dict of a generated service. -/
structure PoolConfig where
  monitor : Option String
  loadBalancingMode : String
deriving DecidableEq

/-- The `{state, session}` dict used for pool members and nodes. -/
structure NodeDesc where
  state : String
  session : String
deriving DecidableEq

/-- One entry of the generated BIG-IP config (`f5_service` in the source).
`nodes` is the insertion-ordered member dict keyed by `host:port`. -/
structure ServiceConfig where
  name : String
  partition : String
  iapp : Option IAppConfig
  virtual : VirtualConfig
  virtual_address : Option String
  pool : PoolConfig
  health : List HealthRecord
  nodes : List (String × NodeDesc)
deriving DecidableEq

/-- A Marathon application record, with the attributes `_f5.py` reads.
Falsy/absent attributes (`bindAddr`, `iapp`, `profile`, `healthCheck`) are
`Option`s; `iapp` holds the template name when present. -/
structure MarathonApp where
  appId : String
  partition : String
  servicePort : Int
  bindAddr : Option String
  mode : String
  balance : String
  profile : Option String
  iapp : Option String
  iappTableName : String
  iappVariables : List (String × String)
  iappOptions : List (String × String)
  healthCheck : Option HealthCheck
  backends : List Backend

/-! ### Pure helper functions of `_f5.py` -/

/-- `healthcheck_timeout_calculate` (`_f5.py:48`):
`((maxConsecutiveFailures - 1) * intervalSeconds) + timeoutSeconds + 1`. -/
def healthcheck_timeout_calculate (data : HealthCheck) : Int :=
  ((data.maxConsecutiveFailures - 1) * data.intervalSeconds) +
    data.timeoutSeconds + 1

/-- `get_protocol` (`_f5.py:67`): case-insensitive mapping
tcp ↦ tcp, http ↦ tcp, udp ↦ udp, anything else ↦ None. -/
def get_protocol (protocol : String) : Option String :=
  if strLower protocol == "tcp" then some "tcp"
  else if strLower protocol == "http" then some "tcp"
  else if strLower protocol == "udp" then some "udp"
  else none

/-- `has_partition` (`_f5.py:79`). A falsy (empty) app partition is rejected
first; then the wildcard check; then literal membership. The
`len(partitions) == 0 and not app_partition` raise in the source is dead code
(a falsy `app_partition` has already returned `False`), so it has no
counterpart here. -/
def has_partition (partitions : List String) (app_partition : String) : Bool :=
  if app_partition == "" then false
  else if "*" ∈ partitions then true
  else if app_partition ∈ partitions then true
  else false

/-- `healthcheck_sendstring` (`_f5.py:1099`). The source builds the literal
two-character escapes `\r\n\r\n` (the Python string `'\\r\\n\\r\\n'`), so the
result here likewise ends in backslash-r backslash-n backslash-r backslash-n.
The function reads only `data['protocol']` and `data['path']`, which are the
two arguments taken here. -/
def healthcheck_sendstring (protocol : Option String) (path : Option String) :
    Option String :=
  if protocol == some "http" then
    match path with
    | some p => some ("GET " ++ p ++ " HTTP/1.0\\r\\n\\r\\n")
    | none => some "GET / HTTP/1.0\\r\\n\\r\\n"
  else none

/-- The `_lbmethods` tuple set in `CloudBigIP.__init__` (`_f5.py:132`). -/
def lbmethods : List String :=
  ["dynamic-ratio-member", "least-connections-member", "observed-node",
   "ratio-least-connections-node", "round-robin", "dynamic-ratio-node",
   "least-connections-node", "predictive-member", "ratio-member",
   "weighted-least-connections-member", "fastest-app-response",
   "least-sessions", "predictive-node", "ratio-node",
   "weighted-least-connections-node", "fastest-node", "observed-member",
   "ratio-least-connections-member", "ratio-session"]

/-- `CloudBigIP.is_label_data_valid` (`_f5.py:154`): mode, port range,
bind address and load-balancing method must all validate. -/
def is_label_data_valid (app : MarathonApp) : Bool :=
  let valid_mode := (get_protocol app.mode).isSome
  let valid_port :=
    decide (1 ≤ app.servicePort) && decide (app.servicePort ≤ 65535)
  let valid_addr :=
    match app.bindAddr with
    | some a => is_ip_address a
    | none => false
  let valid_balance := decide (app.balance ∈ lbmethods)
  valid_mode && valid_port && valid_addr && valid_balance

/-! ### Marathon config builder -/

/-- Insertion-ordered dict update: replace the value in place when the key
exists, append otherwise (Python `dict.update` with one key). -/
def dictUpdate {α : Type} (d : List (String × α)) (k : String) (v : α) :
    List (String × α) :=
  if d.any (fun e => e.1 == k) then
    d.map fun e => if e.1 == k then (k, v) else e
  else d ++ [(k, v)]

/-- Stable insertion of `x` after every element `y` with `le y x`. -/
def insertSorted {α : Type} (le : α → α → Bool) (x : α) : List α → List α
  | [] => [x]
  | y :: ys => if le y x then y :: insertSorted le x ys else x :: y :: ys

/-- Stable sort (models Python's stable `sorted`). -/
def sortStable {α : Type} (le : α → α → Bool) (l : List α) : List α :=
  l.foldl (fun acc x => insertSorted le x acc) []

/-- Lexicographic strict order on character lists by code point. -/
def strLtB : List Char → List Char → Bool
  | [], [] => false
  | [], _ :: _ => true
  | _ :: _, [] => false
  | a :: as, b :: bs =>
      if a.toNat < b.toNat then true
      else if b.toNat < a.toNat then false
      else strLtB as bs

/-- The `attrgetter('appId', 'servicePort')` sort key of
`_create_config_marathon` as a total preorder. -/
def appKeyLe (a b : MarathonApp) : Bool :=
  strLtB a.appId.data b.appId.data ||
    (a.appId == b.appId && decide (a.servicePort ≤ b.servicePort))

/-- The `attrgetter('host', 'port')` sort key used for `app.backends`. -/
def backendKeyLe (a b : Backend) : Bool :=
  strLtB a.host.data b.host.data ||
    (a.host == b.host && decide (a.port ≤ b.port))

/-- The `frontend_name` computed in `_create_config_marathon`
(`_f5.py:402`): `"%s_%s_%d" % (appId.lstrip('/'), frontend, servicePort)`
with `frontend = 'iapp' if app.iapp else app.bindAddr`. -/
def marathonFrontendName (app : MarathonApp) : String :=
  let frontend :=
    match app.iapp with
    | some _ => "iapp"
    | none => app.bindAddr.getD "None"
  lstripChar '/' app.appId ++ "_" ++ frontend ++ "_" ++
    toString app.servicePort

/-- The `health` list of a generated service (`_f5.py:410`): when the app has
a health check, one record named after the frontend, protocol lower-cased,
with `interval`, `timeout` and `send` added. -/
def marathonHealth (app : MarathonApp) (frontend_name : String) :
    List HealthRecord :=
  match app.healthCheck with
  | none => []
  | some hc =>
      let prot := hc.protocol.map strLower
      [{ name := frontend_name
         protocol := prot
         path := hc.path
         maxConsecutiveFailures := hc.maxConsecutiveFailures
         intervalSeconds := hc.intervalSeconds
         timeoutSeconds := hc.timeoutSeconds
         interval := hc.intervalSeconds
         timeout := healthcheck_timeout_calculate hc
         send := healthcheck_sendstring prot hc.path }]

/-- The profile list of a generated service (`_f5.py:430`): the parsed SSL
profile (dropped with a logged error when not of the form `partition/name`),
then the implicit `Common/http` or `Common/tcp` profile by mode. -/
def marathonProfiles (app : MarathonApp) : List Profile :=
  let ssl :=
    match app.profile with
    | none => []
    | some pr =>
        match strSplitOn '/' pr with
        | [p, n] => [{ partition := p, name := n }]
        | _ => []
  ssl ++
    (if strLower app.mode == "http" then
      [{ partition := "Common", name := "http" }]
    else if get_protocol app.mode == some "tcp" then
      [{ partition := "Common", name := "tcp" }]
    else [])

/-- The member dict of a generated service (`_f5.py:465`): backends sorted by
(host, port), hostnames resolved to IPv4 (`resolve_ip` comes from the missing
`common` module and is taken as a parameter; per the spec a backend whose
hostname fails to resolve is dropped), keyed `ip:port`, state always
user-up / user-enabled. -/
def marathonNodes (resolve_ip : String → Option String) (app : MarathonApp) :
    List (String × NodeDesc) :=
  (sortStable backendKeyLe app.backends).foldl
    (fun acc b =>
      match resolve_ip b.host with
      | some ipv4 =>
          dictUpdate acc (ipv4 ++ ":" ++ toString b.port)
            { state := "user-up", session := "user-enabled" }
      | none => acc)
    []

/-- The per-app body of the `_create_config_marathon` loop: `none` when the
app is skipped (unmanaged partition, no bind address and no iApp, or invalid
label data on a non-iApp service), otherwise the generated
`(frontend_name, f5_service)` entry. -/
def process_app (partitions : List String) (resolve_ip : String → Option String)
    (app : MarathonApp) : Option (String × ServiceConfig) :=
  if !(has_partition partitions app.partition) then none
  else if app.bindAddr.isNone && app.iapp.isNone then none
  else if app.iapp.isNone && !(is_label_data_valid app) then none
  else
    let frontend_name := marathonFrontendName app
    some (frontend_name,
      { name := frontend_name
        partition := app.partition
        iapp := app.iapp.map fun t =>
          { template := t
            tableName := app.iappTableName
            vars := app.iappVariables
            options := app.iappOptions }
        virtual :=
          { enabled := true
            disabled := false
            ipProtocol := get_protocol app.mode
            destination := "/" ++ app.partition ++ "/" ++
              app.bindAddr.getD "None" ++ ":" ++ toString app.servicePort
            pool := "/" ++ app.partition ++ "/" ++ frontend_name
            sourceAddressTranslation := "automap"
            profiles := marathonProfiles app }
        virtual_address := app.bindAddr
        pool :=
          { monitor :=
              match app.healthCheck with
              | some _ => some ("/" ++ app.partition ++ "/" ++ frontend_name)
              | none => none
            loadBalancingMode := app.balance }
        health := marathonHealth app frontend_name
        nodes := marathonNodes resolve_ip app })

/-- `CloudBigIP._create_config_marathon` (`_f5.py:352`): apps processed in
stable (appId, servicePort) order, skipped or inserted into the config dict
keyed by frontend name. -/
def create_config_marathon (partitions : List String)
    (resolve_ip : String → Option String) (apps : List MarathonApp) :
    List (String × ServiceConfig) :=
  (sortStable appKeyLe apps).foldl
    (fun f5 app =>
      match process_app partitions resolve_ip app with
      | none => f5
      | some (name, svc) => dictUpdate f5 name svc)
    []

/-! ### iApp definition builder -/

/-- One table of an iApp definition. -/
structure IAppTable where
  columnNames : List String
  name : String
  rows : List (List String)
deriving DecidableEq

/-- The `{vars, tables}` payload built by `iapp_build_definition`. -/
structure IAppDefinition where
  vars : List (String × String)
  tables : List IAppTable
deriving DecidableEq

/-- `CloudBigIP.iapp_build_definition` (`_f5.py:1250`): the variable list
from the service's iApp vars, and a single table whose rows are the
service's current member keys split at `:` into address and port, with a
`'0'` connection limit. -/
def iapp_build_definition (svc : ServiceConfig) : IAppDefinition :=
  let ia := svc.iapp.getD
    { template := "", tableName := "", vars := [], options := [] }
  { vars := ia.vars
    tables :=
      [{ columnNames := ["addr", "port", "connection_limit"]
         name := ia.tableName
         rows := svc.nodes.map fun n =>
           let parts := strSplitOn ':' n.1
           [parts.getD 0 "", parts.getD 1 "", "0"] }] }

/-! ### Reconciliation engine: the operation trace of `_apply_config`

`_apply_config` iterates partitions and, for each, issues Adapter calls in a
fixed order. The per-partition iteration is modelled as a function from the
desired config and the observed partition state to the list of issued
operations, in issue order. -/

/-- One Adapter operation issued by the engine, in the phase it belongs to.
`nodeModify`/`nodeDelete` are issued by `cleanup_nodes`; `nodeCleanup` marks
the engine's invocation of that sweep at the end of the partition pass. -/
inductive Op where
  | iappDelete (partition name : String)
  | iappCreate (partition name : String) (defn : IAppDefinition)
  | iappUpdate (partition name : String) (defn : IAppDefinition)
  | virtualDelete (partition name : String)
  | poolDelete (partition name : String)
  | hcDelete (partition name hcType : String)
  | hcCreate (partition : String) (hc : HealthRecord)
  | poolCreate (partition name : String) (pool : PoolConfig)
  | virtualCreate (partition name : String) (virt : VirtualConfig)
  | hcUpdate (partition name : String) (hc : HealthRecord)
  | poolUpdate (partition name : String) (pool : PoolConfig)
  | virtualUpdate (partition name : String) (virt : VirtualConfig)
  | memberDelete (partition pool member : String)
  | memberCreate (partition pool member : String) (d : NodeDesc)
  | memberUpdate (partition pool member : String) (d : NodeDesc)
  | nodeModify (partition name : String) (d : NodeDesc)
  | nodeDelete (partition name : String)
  | nodeCleanup (partition : String)
deriving DecidableEq

/-- The actual BIG-IP state of one partition as the engine reads it:
iApp names, pool names, virtual-server names, health-monitor names tagged
with their kind (`get_healthcheck_list`), and the member names of each
pool. -/
structure PartitionState where
  iapps : List String
  pools : List String
  virtuals : List String
  healthchecks : List (String × String)
  poolMembers : List (String × List String)
deriving DecidableEq

/-- The config entries of this partition that are individually managed
(`marathon_virtual_list` / `marathon_pool_list` comprehensions,
`_f5.py:500`), paired with their configs. -/
def virtualEntries (partition : String)
    (config : List (String × ServiceConfig)) :
    List (String × ServiceConfig) :=
  config.filter fun e => e.2.partition == partition && e.2.iapp.isNone

/-- The config entries of this partition that are iApp managed
(`marathon_iapp_list` comprehension, `_f5.py:508`). -/
def iappEntries (partition : String) (config : List (String × ServiceConfig)) :
    List (String × ServiceConfig) :=
  config.filter fun e => e.2.partition == partition && e.2.iapp.isSome

/-- `marathon_virtual_list` (`_f5.py:500`). -/
def marathon_virtual_list (partition : String)
    (config : List (String × ServiceConfig)) : List String :=
  (virtualEntries partition config).map Prod.fst

/-- `marathon_pool_list` (`_f5.py:504`; the comprehension is identical to
the virtual one). -/
def marathon_pool_list (partition : String)
    (config : List (String × ServiceConfig)) : List String :=
  (virtualEntries partition config).map Prod.fst

/-- `marathon_iapp_list` (`_f5.py:508`). -/
def marathon_iapp_list (partition : String)
    (config : List (String × ServiceConfig)) : List String :=
  (iappEntries partition config).map Prod.fst

/-- The services behind `marathon_healthcheck_list` (`_f5.py:538`): one
occurrence of the owning service per protocol-bearing entry of its `health`
list, paired with the config for later `config[hc]` lookups. -/
def healthcheckEntries (partition : String)
    (config : List (String × ServiceConfig)) :
    List (String × ServiceConfig) :=
  (virtualEntries partition config).flatMap fun e =>
    (e.2.health.filter fun hc => hc.protocol.isSome).map fun _ => e

/-- `marathon_healthcheck_list` (`_f5.py:538`). -/
def marathon_healthcheck_list (partition : String)
    (config : List (String × ServiceConfig)) : List String :=
  (healthcheckEntries partition config).map Prod.fst

/-- The iApp-owned exclusion filter (`_f5.py:560`): for each managed iApp,
drop every actual-resource name prefixed by the iApp's name. -/
def excludeIappOwned (iapps : List String) (names : List String) :
    List String :=
  iapps.foldl (fun acc iapp => acc.filter fun x => !(strStartsWith x iapp))
    names

/-- `f5_pool_list` after iApp-owned exclusion. -/
def f5_pool_list_filtered (partition : String)
    (config : List (String × ServiceConfig)) (st : PartitionState) :
    List String :=
  excludeIappOwned (marathon_iapp_list partition config) st.pools

/-- `f5_virtual_list` after iApp-owned exclusion. -/
def f5_virtual_list_filtered (partition : String)
    (config : List (String × ServiceConfig)) (st : PartitionState) :
    List String :=
  excludeIappOwned (marathon_iapp_list partition config) st.virtuals

/-- `f5_healthcheck_list` after iApp-owned exclusion. -/
def f5_healthcheck_list_filtered (partition : String)
    (config : List (String × ServiceConfig)) (st : PartitionState) :
    List String :=
  excludeIappOwned (marathon_iapp_list partition config)
    (st.healthchecks.map Prod.fst)

/-- The `pool_add` names (`_f5.py:605`) paired with their configs. -/
def poolAddEntries (partition : String)
    (config : List (String × ServiceConfig)) (st : PartitionState) :
    List (String × ServiceConfig) :=
  (virtualEntries partition config).filter fun e =>
    decide (e.1 ∉ f5_pool_list_filtered partition config st)

/-- The `pool_intersect` names (`_f5.py:626`) paired with their configs. -/
def poolIntersectEntries (partition : String)
    (config : List (String × ServiceConfig)) (st : PartitionState) :
    List (String × ServiceConfig) :=
  (virtualEntries partition config).filter fun e =>
    decide (e.1 ∈ f5_pool_list_filtered partition config st)

/-- The member phase (`_f5.py:643`): for every added or intersecting pool,
diff the desired member keys against the live member list and issue member
deletes, creates and updates. -/
def memberPhaseOps (partition : String)
    (config : List (String × ServiceConfig)) (st : PartitionState) :
    List Op :=
  (poolAddEntries partition config st ++
    poolIntersectEntries partition config st).flatMap fun e =>
      let f5_members := (st.poolMembers.lookup e.1).getD []
      let m_members := e.2.nodes.map Prod.fst
      (list_diff f5_members m_members).map
          (fun m => Op.memberDelete partition e.1 m) ++
        ((e.2.nodes.filter fun n => decide (n.1 ∉ f5_members)).map
          fun n => Op.memberCreate partition e.1 n.1 n.2) ++
        ((e.2.nodes.filter fun n => decide (n.1 ∈ f5_members)).map
          fun n => Op.memberUpdate partition e.1 n.1 n.2)

/-- The fourteen phases of one partition iteration of `_apply_config`
(`_f5.py:497`), each as the list of operations it issues, in source order:
iApp delete, iApp create, iApp update, virtual delete, pool delete,
health-monitor delete, health-monitor create, pool create, virtual create,
health-monitor update, pool update, virtual update, member phase, node
cleanup. `config[x]` lookups are modelled by carrying each name's config
entry along with it, which agrees with the source for the dict-derived
(unique-key) configs the builders produce. -/
def applyPhases (partition : String) (config : List (String × ServiceConfig))
    (st : PartitionState) : List (List Op) :=
  [(list_diff st.iapps (marathon_iapp_list partition config)).map
      (fun name => Op.iappDelete partition name),
   ((iappEntries partition config).filter fun e =>
      decide (e.1 ∉ st.iapps)).map
      (fun e => Op.iappCreate partition e.1 (iapp_build_definition e.2)),
   ((iappEntries partition config).filter fun e =>
      decide (e.1 ∈ st.iapps)).map
      (fun e => Op.iappUpdate partition e.1 (iapp_build_definition e.2)),
   (list_diff (f5_virtual_list_filtered partition config st)
      (marathon_virtual_list partition config)).map
      (fun name => Op.virtualDelete partition name),
   (list_diff (f5_pool_list_filtered partition config st)
      (marathon_pool_list partition config)).map
      (fun name => Op.poolDelete partition name),
   (list_diff (f5_healthcheck_list_filtered partition config st)
      (marathon_healthcheck_list partition config)).map
      (fun name =>
        Op.hcDelete partition name ((st.healthchecks.lookup name).getD "")),
   ((healthcheckEntries partition config).filter fun e =>
      decide (e.1 ∉ f5_healthcheck_list_filtered partition config st)).flatMap
      (fun e => e.2.health.map fun item => Op.hcCreate partition item),
   (poolAddEntries partition config st).map
      (fun e => Op.poolCreate partition e.1 e.2.pool),
   ((virtualEntries partition config).filter fun e =>
      decide (e.1 ∉ f5_virtual_list_filtered partition config st)).map
      (fun e => Op.virtualCreate partition e.1 e.2.virtual),
   ((virtualEntries partition config).filter fun e =>
      decide (e.1 ∈ f5_healthcheck_list_filtered partition config st)).flatMap
      (fun e => e.2.health.map fun item => Op.hcUpdate partition e.1 item),
   (poolIntersectEntries partition config st).map
      (fun e => Op.poolUpdate partition e.1 e.2.pool),
   ((virtualEntries partition config).filter fun e =>
      decide (e.1 ∈ f5_virtual_list_filtered partition config st)).map
      (fun e => Op.virtualUpdate partition e.1 e.2.virtual),
   memberPhaseOps partition config st,
   [Op.nodeCleanup partition]]

/-- The full operation trace of one partition iteration of
`CloudBigIP._apply_config` (`_f5.py:489`), in issue order. -/
def apply_config_partition (partition : String)
    (config : List (String × ServiceConfig)) (st : PartitionState) :
    List Op :=
  (applyPhases partition config st).flatten

/-! ### Node garbage collector -/

/-- The node name of a member string: `member.split(':')` takes the part
before the colon (`_f5.py:691`). -/
def memberNodeName (member : String) : String :=
  (strSplitOn ':' member).headD ""

/-- The in-use node check of `cleanup_nodes` (`_f5.py:701`): a node whose
state is `up` or `unchecked` and whose session contains `enabled` is left
untouched. -/
def shouldSkipNode (d : NodeDesc) : Bool :=
  (d.state == "up" || d.state == "unchecked") && strContainsSub d.session
    "enabled"

/-- The member scan of `cleanup_nodes` (`_f5.py:688`): walk the members in
pool order; the first member referencing a node still in the candidate list
removes it from the list and, unless the node is up/unchecked with an
enabled session, issues a modify to user-up/user-enabled. Returns the
remaining candidate list and the modify trace. -/
def sweepMembers (partition : String) (ns : String → NodeDesc) :
    List String → List String → List String × List Op
  | nl, [] => (nl, [])
  | nl, m :: ms =>
      let name := memberNodeName m
      if name ∈ nl then
        let rest := sweepMembers partition ns (nl.erase name) ms
        if shouldSkipNode (ns name) then rest
        else
          (rest.1,
            Op.nodeModify partition name
              { state := "user-up", session := "user-enabled" } :: rest.2)
      else sweepMembers partition ns nl ms

/-- `CloudBigIP.cleanup_nodes` (`_f5.py:677`): scan every pool's member list
(the nested loops walk the concatenation of the per-pool member lists in
order), then delete every node never marked in-use. `ns` gives the
state/session the BIG-IP reports for each node. -/
def cleanup_nodes (partition : String) (node_list : List String)
    (pools : List (String × List String)) (ns : String → NodeDesc) :
    List Op :=
  let members := pools.flatMap Prod.snd
  let r := sweepMembers partition ns node_list members
  r.2 ++ r.1.map fun n => Op.nodeDelete partition n

/-! ### Top-level error routing of `regenerate_config_f5` -/

/-- The exception kinds distinguished by `regenerate_config_f5`
(`_f5.py:207`): the four caught Adapter error classes, and `other` for
every exception outside them. -/
inductive BigIPError where
  | connectionError
  | f5SDKError
  | bigIPInvalidURL
  | iControlUnexpectedHTTPError
  | other
deriving DecidableEq

/-- A pass attempt: the operations the pass would issue, and an optional
injected failure `(k, e)` meaning the pass raises `e` after the first `k`
operations have been applied. The applied prefix is returned unchanged —
there is no rollback. -/
def runPass (ops : List Op) (failure : Option (Nat × BigIPError)) :
    List Op × Option BigIPError :=
  match failure with
  | none => (ops, none)
  | some (k, e) => (ops.take k, some e)

/-- `CloudBigIP.regenerate_config_f5` (`_f5.py:187`): each of the four
Adapter error classes is caught and turns into the retry signal `True`; a
clean pass returns `False`; any other exception is re-raised. The first
component is the operations that remain applied. -/
def regenerate_config_f5 (ops : List Op)
    (failure : Option (Nat × BigIPError)) :
    List Op × Except BigIPError Bool :=
  match runPass ops failure with
  | (done, none) => (done, Except.ok false)
  | (done, some BigIPError.connectionError) => (done, Except.ok true)
  | (done, some BigIPError.f5SDKError) => (done, Except.ok true)
  | (done, some BigIPError.bigIPInvalidURL) => (done, Except.ok true)
  | (done, some BigIPError.iControlUnexpectedHTTPError) =>
      (done, Except.ok true)
  | (done, some BigIPError.other) => (done, Except.error BigIPError.other)

/-! ### Operation-kind predicates and phase-ordering statements -/

/-- Health-monitor delete or create operations. -/
def isHcDeleteOrCreate : Op → Bool
  | Op.hcDelete _ _ _ => true
  | Op.hcCreate _ _ => true
  | _ => false

/-- Pool delete, create or update operations. -/
def isPoolOp : Op → Bool
  | Op.poolDelete _ _ => true
  | Op.poolCreate _ _ _ => true
  | Op.poolUpdate _ _ _ => true
  | _ => false

/-- Pool create or update operations. -/
def isPoolCreateOrUpdate : Op → Bool
  | Op.poolCreate _ _ _ => true
  | Op.poolUpdate _ _ _ => true
  | _ => false

/-- Pool delete operations. -/
def isPoolDelete : Op → Bool
  | Op.poolDelete _ _ => true
  | _ => false

/-- Every `p`-operation of the trace is issued strictly before every
`q`-operation. -/
def PhaseOrdered {α : Type} (p q : α → Bool) (t : List α) : Prop :=
  ∀ (i j : Nat) (x y : α), t[i]? = some x → t[j]? = some y → p x = true →
    q y = true → i < j

/-- Claim C2 as stated: every health-monitor delete/create of the pass
precedes every pool operation (delete, create or update). -/
def MonitorPhasePrecedesPools (t : List Op) : Prop :=
  PhaseOrdered isHcDeleteOrCreate isPoolOp t

/-! ### Concrete inputs used by the witnesses and counterexamples -/

/-- A well-formed HTTP health check. -/
def exHc : HealthCheck :=
  { protocol := some "HTTP", path := some "/health",
    maxConsecutiveFailures := 3, intervalSeconds := 5, timeoutSeconds := 10 }

/-- A valid individually-managed app in partition `prod`. -/
def exAppProd : MarathonApp :=
  { appId := "/app-a", partition := "prod", servicePort := 80,
    bindAddr := some "10.0.0.1", mode := "http", balance := "round-robin",
    profile := none, iapp := none, iappTableName := "",
    iappVariables := [], iappOptions := [], healthCheck := some exHc,
    backends := [] }

/-- The same app shape declared under partition `dev`. -/
def exAppDev : MarathonApp :=
  { exAppProd with appId := "/app-b", partition := "dev" }

/-- An app with an invalid protocol label. -/
def exAppBadMode : MarathonApp :=
  { exAppProd with mode := "icmp" }

/-- An app that declares no partition. -/
def exAppNoPartition : MarathonApp :=
  { exAppProd with partition := "" }

/-- The generated health record of the example service. -/
def exHealthRecord : HealthRecord :=
  { name := "app-a_10.0.0.1_80", protocol := some "http",
    path := none, maxConsecutiveFailures := 3, intervalSeconds := 5,
    timeoutSeconds := 10, interval := 5, timeout := 21,
    send := some "GET / HTTP/1.0\\r\\n\\r\\n" }

/-- A desired config holding one individually-managed service with one HTTP
health monitor. -/
def exService : ServiceConfig :=
  { name := "app-a_10.0.0.1_80", partition := "p", iapp := none,
    virtual :=
      { enabled := true, disabled := false, ipProtocol := some "tcp",
        destination := "/p/10.0.0.1:80", pool := "/p/app-a_10.0.0.1_80",
        sourceAddressTranslation := "automap", profiles := [] },
    virtual_address := some "10.0.0.1",
    pool := { monitor := some "/p/app-a_10.0.0.1_80",
              loadBalancingMode := "round-robin" },
    health := [exHealthRecord],
    nodes := [] }

/-- An iApp-managed service entry. -/
def exIappService : ServiceConfig :=
  { name := "svc-i_iapp_8080", partition := "p",
    iapp := some { template := "/Common/f5.http",
                   tableName := "pool__members",
                   vars := [("monitor__monitor", "/#create_new#")],
                   options := [] },
    virtual :=
      { enabled := true, disabled := false, ipProtocol := some "tcp",
        destination := "/p/None:8080", pool := "/p/svc-i_iapp_8080",
        sourceAddressTranslation := "automap", profiles := [] },
    virtual_address := none,
    pool := { monitor := none, loadBalancingMode := "round-robin" },
    health := [],
    nodes := [("10.0.0.7:31000",
               { state := "user-up", session := "user-enabled" })] }

/-- A partition state with one stale pool and one stale health monitor. -/
def exStateStale : PartitionState :=
  { iapps := [], pools := ["stale-pool"], virtuals := [],
    healthchecks := [("stale-hc", "http")], poolMembers := [] }

/-- An empty partition state. -/
def exStateEmpty : PartitionState :=
  { iapps := [], pools := [], virtuals := [], healthchecks := [],
    poolMembers := [] }

/-- A partition state that already holds the iApp of `exIappService`. -/
def exStateIapp : PartitionState :=
  { iapps := ["svc-i_iapp_8080"], pools := [], virtuals := [],
    healthchecks := [], poolMembers := [] }

/-- Node states for the `cleanup_nodes` witness. -/
def exNodeStates (n : String) : NodeDesc :=
  if n == "10.0.0.1" then { state := "up", session := "monitor-enabled" }
  else if n == "10.0.0.2" then
    { state := "user-down", session := "user-disabled" }
  else { state := "unchecked", session := "user-enabled" }

/-! ### Helper lemmas -/

/-- Membership in `list_diff` is exactly membership in the first operand
minus membership in the second. -/
theorem mem_list_diff {α : Type} [DecidableEq α] {x : α} {l1 l2 : List α} :
    x ∈ list_diff l1 l2 ↔ x ∈ l1 ∧ x ∉ l2 := by
  simp [list_diff, List.mem_filter]

/-- Membership in `list_intersect` is exactly membership in both operands. -/
theorem mem_list_intersect {α : Type} [DecidableEq α] {x : α}
    {l1 l2 : List α} : x ∈ list_intersect l1 l2 ↔ x ∈ l1 ∧ x ∈ l2 := by
  simp [list_intersect, List.mem_filter]

/-! ### Claim theorems -/

/-- C1: the diffing primitive of the reconciliation engine computes
`to_delete = A \ D`, `to_add = D \ A` and `to_update = D ∩ A` by membership,
each result is a sublist of (hence ordered like) the primitive's first
operand, and `to_delete ∩ to_add = ∅` and `to_add ∩ to_update = ∅`. -/
theorem C1_diff_primitive (D A : List String) :
    (∀ x, x ∈ list_diff A D ↔ x ∈ A ∧ x ∉ D) ∧
    (∀ x, x ∈ list_diff D A ↔ x ∈ D ∧ x ∉ A) ∧
    (∀ x, x ∈ list_intersect D A ↔ x ∈ D ∧ x ∈ A) ∧
    (list_diff A D).Sublist A ∧
    (list_diff D A).Sublist D ∧
    (list_intersect D A).Sublist D ∧
    (∀ x, ¬(x ∈ list_diff A D ∧ x ∈ list_diff D A)) ∧
    (∀ x, ¬(x ∈ list_diff D A ∧ x ∈ list_intersect D A)) := by
  refine ⟨fun x => mem_list_diff, fun x => mem_list_diff,
    fun x => mem_list_intersect, List.filter_sublist A, List.filter_sublist D,
    List.filter_sublist D, ?_, ?_⟩
  · rintro x ⟨h1, h2⟩
    rw [mem_list_diff] at h1 h2
    exact h2.2 h1.1
  · rintro x ⟨h1, h2⟩
    rw [mem_list_diff] at h1
    rw [mem_list_intersect] at h2
    exact h1.2 h2.2

/-- C4: a pass returns the retry signal `True` exactly when it raises one of
the four caught Adapter error kinds, returns `False` on a clean pass, and
re-raises (propagates) any other exception; in every case the operations
applied before the failure (`ops.take k`) remain applied, with no
rollback. -/
theorem C4_retry_semantics (ops : List Op) :
    regenerate_config_f5 ops none = (ops, Except.ok false) ∧
    (∀ (k : Nat) (e : BigIPError), e ≠ BigIPError.other →
      regenerate_config_f5 ops (some (k, e)) = (ops.take k, Except.ok true)) ∧
    (∀ k : Nat,
      regenerate_config_f5 ops (some (k, BigIPError.other)) =
        (ops.take k, Except.error BigIPError.other)) := by
  refine ⟨rfl, ?_, fun k => rfl⟩
  intro k e he
  cases e
  · rfl
  · rfl
  · rfl
  · rfl
  · exact absurd rfl he

/-- C4 witness: a connection error after one applied operation yields the
retry signal with the applied prefix intact. -/
theorem C4_witness :
    BigIPError.connectionError ≠ BigIPError.other ∧
    regenerate_config_f5 [Op.nodeCleanup "p"]
        (some (1, BigIPError.connectionError)) =
      ([Op.nodeCleanup "p"], Except.ok true) :=
  ⟨by decide,
   (C4_retry_semantics [Op.nodeCleanup "p"]).2.1 1 BigIPError.connectionError
     (by decide)⟩

/-- C5: the health-monitor timeout is
`(maxConsecutiveFailures - 1) * intervalSeconds + timeoutSeconds + 1`, the
builder stores exactly this value in the generated health record, and the
3/5/10 instance computes 21. -/
theorem C5_health_timeout_formula :
    (∀ hc : HealthCheck, healthcheck_timeout_calculate hc =
      (hc.maxConsecutiveFailures - 1) * hc.intervalSeconds +
        hc.timeoutSeconds + 1) ∧
    (∀ (partitions : List String) (resolve_ip : String → Option String)
        (app : MarathonApp) (hc : HealthCheck) (name : String)
        (svc : ServiceConfig),
      app.healthCheck = some hc →
      process_app partitions resolve_ip app = some (name, svc) →
      ∃ r, svc.health = [r] ∧
        r.timeout = (hc.maxConsecutiveFailures - 1) * hc.intervalSeconds +
          hc.timeoutSeconds + 1) ∧
    healthcheck_timeout_calculate
      { protocol := none, path := none, maxConsecutiveFailures := 3,
        intervalSeconds := 5, timeoutSeconds := 10 } = 21 := by
  refine ⟨fun hc => rfl, ?_, by decide⟩
  intro partitions resolve_ip app hc name svc hhc hproc
  unfold process_app at hproc
  split at hproc
  · exact absurd hproc (by simp)
  split at hproc
  · exact absurd hproc (by simp)
  split at hproc
  · exact absurd hproc (by simp)
  simp only [Option.some.injEq, Prod.mk.injEq] at hproc
  obtain ⟨-, rfl⟩ := hproc
  simp only [marathonHealth, hhc]
  exact ⟨_, rfl, rfl⟩

/-- C5 witness: the formula instantiated through the builder on a concrete
app with the 3/5/10 health check. -/
theorem C5_witness :
    ∃ name svc r,
      process_app ["prod"] (fun _ => none) exAppProd = some (name, svc) ∧
      exAppProd.healthCheck = some exHc ∧
      svc.health = [r] ∧ r.timeout = 21 := by
  rcases hp : process_app ["prod"] (fun _ => none) exAppProd with - | ⟨n, s⟩
  · exact absurd hp (by decide)
  · obtain ⟨r, hr, ht⟩ := C5_health_timeout_formula.2.1 ["prod"]
      (fun _ => none) exAppProd exHc n s rfl hp
    exact ⟨n, s, r, rfl, rfl, hr, by rw [ht]; decide⟩

/-- C6 counterexample: the protocol `udp` derives mode `udp`, not `tcp` as
the claim's "tcp/http/udp derive tcp" asserts. -/
theorem C6_counterexample :
    get_protocol "udp" = some "udp" ∧ get_protocol "udp" ≠ some "tcp" :=
  ⟨by decide, by decide⟩

/-- C6 amended: the derived transport mode maps tcp ↦ tcp and http ↦ tcp,
udp ↦ udp, and any other value (case-insensitively) derives no mode, in
which case a non-iApp service fails validation and is excluded from the
desired model. -/
theorem C6_protocol_mapping :
    get_protocol "tcp" = some "tcp" ∧
    get_protocol "http" = some "tcp" ∧
    get_protocol "udp" = some "udp" ∧
    (∀ s : String, strLower s ≠ "tcp" → strLower s ≠ "http" →
      strLower s ≠ "udp" → get_protocol s = none) ∧
    (∀ (partitions : List String) (resolve_ip : String → Option String)
        (app : MarathonApp), app.iapp = none →
      get_protocol app.mode = none →
      process_app partitions resolve_ip app = none) := by
  refine ⟨by decide, by decide, by decide, ?_, ?_⟩
  · intro s h1 h2 h3
    simp only [get_protocol, beq_iff_eq]
    rw [if_neg h1, if_neg h2, if_neg h3]
  · intro partitions resolve_ip app hiapp hvalidmode
    have hvalid : is_label_data_valid app = false := by
      simp [is_label_data_valid, hvalidmode]
    unfold process_app
    split
    · rfl
    split
    · rfl
    split
    · rfl
    next h3 => exact absurd (by simp [hiapp, hvalid]) h3

/-- C6 witness: an unrecognized protocol derives no mode and excludes the
app from the desired model. -/
theorem C6_witness :
    get_protocol "icmp" = none ∧
    process_app ["prod"] (fun _ => none) exAppBadMode = none :=
  ⟨C6_protocol_mapping.2.2.2.1 "icmp" (by decide) (by decide) (by decide),
   C6_protocol_mapping.2.2.2.2 ["prod"] (fun _ => none) exAppBadMode rfl
     (by decide)⟩

/-- C7: for protocol `http` the send string is
`GET <path or "/"> HTTP/1.0` followed by the literal two-character escapes
backslash-r backslash-n backslash-r backslash-n (exactly as the Python
source writes them); for every other protocol it is `None`. -/
theorem C7_sendstring (path : Option String) (p : String) (hp : p ≠ "http") :
    healthcheck_sendstring (some "http") path =
      some ("GET " ++ path.getD "/" ++ " HTTP/1.0\\r\\n\\r\\n") ∧
    healthcheck_sendstring (some p) path = none := by
  constructor
  · cases path with
    | none => rfl
    | some pp => rfl
  · have hb : (some p == some "http") = false := by simp [hp]
    simp [healthcheck_sendstring, hb]

/-- C7 witness: the HTTP send string for path `/health`, and the empty send
string for protocol `tcp`. -/
theorem C7_witness :
    ("tcp" : String) ≠ "http" ∧
    healthcheck_sendstring (some "http") (some "/health") =
      some "GET /health HTTP/1.0\\r\\n\\r\\n" ∧
    healthcheck_sendstring (some "tcp") (some "/health") = none := by
  have h := C7_sendstring (some "/health") "tcp" (by decide)
  exact ⟨by decide, h.1, h.2⟩

/-- C9: an application whose partition is not in the managed list (with no
wildcard) yields no Service entry and no error, while the same app under a
wildcard list yields exactly one entry when it is otherwise valid. -/
theorem C9_partition_exclusion (partitions : List String)
    (resolve_ip : String → Option String) (app : MarathonApp) :
    (app.partition ∉ partitions → "*" ∉ partitions →
      create_config_marathon partitions resolve_ip [app] = []) ∧
    ("*" ∈ partitions → app.partition ≠ "" →
      (app.bindAddr.isSome = true ∨ app.iapp.isSome = true) →
      (app.iapp.isSome = true ∨ is_label_data_valid app = true) →
      (create_config_marathon partitions resolve_ip [app]).length = 1) := by
  have hsort : sortStable appKeyLe [app] = [app] := rfl
  constructor
  · intro h1 h2
    have hp : has_partition partitions app.partition = false := by
      unfold has_partition
      by_cases he : (app.partition == "") = true
      · rw [if_pos he]
      · rw [if_neg he, if_neg h2, if_neg h1]
    have hproc : process_app partitions resolve_ip app = none := by
      unfold process_app
      rw [hp]
      rfl
    unfold create_config_marathon
    rw [hsort]
    simp [hproc]
  · intro hw hne hbind hvalid
    have hp : has_partition partitions app.partition = true := by
      unfold has_partition
      rw [if_neg (by simp [hne]), if_pos hw]
    have hguard2 : (app.bindAddr.isNone && app.iapp.isNone) = false := by
      rcases hbind with h | h
      · cases hb : app.bindAddr with
        | none => rw [hb] at h; simp at h
        | some a => simp [hb]
      · cases hi : app.iapp with
        | none => rw [hi] at h; simp at h
        | some t => simp [hi]
    have hguard3 :
        (app.iapp.isNone && !(is_label_data_valid app)) = false := by
      rcases hvalid with h | h
      · cases hi : app.iapp with
        | none => rw [hi] at h; simp at h
        | some t => simp [hi]
      · simp [h]
    have hproc : ∃ pr, process_app partitions resolve_ip app = some pr := by
      unfold process_app
      rw [hp, hguard2, hguard3]
      exact ⟨_, rfl⟩
    obtain ⟨⟨name, svc⟩, hpr⟩ := hproc
    unfold create_config_marathon
    rw [hsort]
    simp [hpr, dictUpdate]

/-- C9 witness: the partition-`dev` app under managed list `["prod"]` yields
no entry; the same app under `["*"]` yields exactly one. -/
theorem C9_witness :
    (exAppDev.partition ∉ (["prod"] : List String) ∧
      "*" ∉ (["prod"] : List String) ∧
      create_config_marathon ["prod"] (fun _ => none) [exAppDev] = []) ∧
    ("*" ∈ (["*"] : List String) ∧ exAppDev.partition ≠ "" ∧
      (create_config_marathon ["*"] (fun _ => none) [exAppDev]).length = 1) :=
  ⟨⟨by decide, by decide,
    (C9_partition_exclusion ["prod"] (fun _ => none) exAppDev).1 (by decide)
      (by decide)⟩,
   ⟨by decide, by decide,
    (C9_partition_exclusion ["*"] (fun _ => none) exAppDev).2 (by decide)
      (by decide) (by decide) (by decide)⟩⟩

/-- C10: an app with an empty/missing partition is never managed — even
under the wildcard — and so is excluded from the desired model. -/
theorem C10_empty_partition_excluded (partitions : List String)
    (resolve_ip : String → Option String) (app : MarathonApp)
    (h : app.partition = "") :
    has_partition partitions "" = false ∧
    create_config_marathon partitions resolve_ip [app] = [] := by
  have hfalse : has_partition partitions "" = false := by
    unfold has_partition
    rw [if_pos]
    exact rfl
  refine ⟨hfalse, ?_⟩
  have hproc : process_app partitions resolve_ip app = none := by
    unfold process_app
    rw [h, hfalse]
    rfl
  unfold create_config_marathon
  rw [show sortStable appKeyLe [app] = [app] from rfl]
  simp [hproc]

/-- C10 witness: the empty-partition app is excluded even under `["*"]`. -/
theorem C10_witness :
    exAppNoPartition.partition = "" ∧
    has_partition ["*"] "" = false ∧
    create_config_marathon ["*"] (fun _ => none) [exAppNoPartition] = [] := by
  have h := C10_empty_partition_excluded ["*"] (fun _ => none)
    exAppNoPartition rfl
  exact ⟨rfl, h.1, h.2⟩

/-- If no `q`-operation occurs in `a` and no `p`-operation occurs in `b`,
then in `a ++ b` every `p`-operation precedes every `q`-operation. -/
theorem splitOrder {α : Type} {a b : List α} {p q : α → Bool}
    (ha : ∀ x ∈ a, q x = false) (hb : ∀ x ∈ b, p x = false) :
    PhaseOrdered p q (a ++ b) := by
  intro i j x y hx hy hp hq
  have hia : i < a.length := by
    by_contra h
    push_neg at h
    rw [List.getElem?_append_right h] at hx
    have hxb : x ∈ b := List.getElem?_mem hx
    rw [hb x hxb] at hp
    exact Bool.false_ne_true hp
  have hja : a.length ≤ j := by
    by_contra h
    push_neg at h
    rw [List.getElem?_append_left h] at hy
    have hya : y ∈ a := List.getElem?_mem hy
    rw [ha y hya] at hq
    exact Bool.false_ne_true hq
  omega

/-- Segment version of `splitOrder`: if the first `k` phases contain no
`q`-operation and the remaining phases contain no `p`-operation, the
flattened trace issues every `p`-operation before every `q`-operation. -/
theorem flattenSplitOrder {α : Type} (L : List (List α)) (k : Nat)
    (p q : α → Bool)
    (ha : ∀ l ∈ L.take k, ∀ x ∈ l, q x = false)
    (hb : ∀ l ∈ L.drop k, ∀ x ∈ l, p x = false) :
    PhaseOrdered p q L.flatten := by
  have h : L.flatten = (L.take k).flatten ++ (L.drop k).flatten := by
    rw [← List.flatten_append, List.take_append_drop]
  rw [h]
  apply splitOrder
  · intro x hx
    obtain ⟨l, hl, hxl⟩ := List.mem_flatten.mp hx
    exact ha l hl x hxl
  · intro x hx
    obtain ⟨l, hl, hxl⟩ := List.mem_flatten.mp hx
    exact hb l hl x hxl

/-- Every operation of the member phase is a member delete, create or
update. -/
theorem memberPhaseOps_kinds {partition : String}
    {config : List (String × ServiceConfig)} {st : PartitionState} :
    ∀ x ∈ memberPhaseOps partition config st,
      isHcDeleteOrCreate x = false ∧ isPoolCreateOrUpdate x = false ∧
        isPoolDelete x = false := by
  intro x hx
  unfold memberPhaseOps at hx
  obtain ⟨e, -, hx⟩ := List.mem_flatMap.mp hx
  simp only [List.mem_append, List.mem_map] at hx
  rcases hx with (⟨m, -, rfl⟩ | ⟨n, -, rfl⟩) | ⟨n, -, rfl⟩
  · exact ⟨rfl, rfl, rfl⟩
  · exact ⟨rfl, rfl, rfl⟩
  · exact ⟨rfl, rfl, rfl⟩

/-- C2 amended: within one partition pass, every health-monitor delete and
create is issued strictly before every pool create and pool update, and
every pool delete is issued strictly before every health-monitor delete and
create (the pool-delete phase runs before the monitor phases, so health
monitors do not precede all pool operations as originally claimed). -/
theorem C2_monitor_phase_order (partition : String)
    (config : List (String × ServiceConfig)) (st : PartitionState) :
    PhaseOrdered isHcDeleteOrCreate isPoolCreateOrUpdate
      (apply_config_partition partition config st) ∧
    PhaseOrdered isPoolDelete isHcDeleteOrCreate
      (apply_config_partition partition config st) := by
  constructor
  · unfold apply_config_partition
    apply flattenSplitOrder _ 7
    · intro l hl
      simp only [applyPhases, List.take_succ_cons, List.take_zero,
        List.mem_cons, List.not_mem_nil, or_false] at hl
      rcases hl with rfl | rfl | rfl | rfl | rfl | rfl | rfl <;>
        intro x hx <;>
        first
          | (obtain ⟨a, -, rfl⟩ := List.mem_map.mp hx; rfl)
          | (obtain ⟨e, -, hx2⟩ := List.mem_flatMap.mp hx;
             obtain ⟨it, -, rfl⟩ := List.mem_map.mp hx2; rfl)
    · intro l hl
      simp only [applyPhases, List.drop_succ_cons, List.drop_zero,
        List.mem_cons, List.not_mem_nil, or_false] at hl
      rcases hl with rfl | rfl | rfl | rfl | rfl | rfl | rfl <;>
        intro x hx <;>
        first
          | (obtain ⟨a, -, rfl⟩ := List.mem_map.mp hx; rfl)
          | (obtain ⟨e, -, hx2⟩ := List.mem_flatMap.mp hx;
             obtain ⟨it, -, rfl⟩ := List.mem_map.mp hx2; rfl)
          | exact (memberPhaseOps_kinds x hx).1
          | (rcases List.mem_singleton.mp hx with rfl; rfl)
  · unfold apply_config_partition
    apply flattenSplitOrder _ 5
    · intro l hl
      simp only [applyPhases, List.take_succ_cons, List.take_zero,
        List.mem_cons, List.not_mem_nil, or_false] at hl
      rcases hl with rfl | rfl | rfl | rfl | rfl <;>
        intro x hx <;>
        (obtain ⟨a, -, rfl⟩ := List.mem_map.mp hx; rfl)
    · intro l hl
      simp only [applyPhases, List.drop_succ_cons, List.drop_zero,
        List.mem_cons, List.not_mem_nil, or_false] at hl
      rcases hl with rfl | rfl | rfl | rfl | rfl | rfl | rfl | rfl | rfl <;>
        intro x hx <;>
        first
          | (obtain ⟨a, -, rfl⟩ := List.mem_map.mp hx; rfl)
          | (obtain ⟨e, -, hx2⟩ := List.mem_flatMap.mp hx;
             obtain ⟨it, -, rfl⟩ := List.mem_map.mp hx2; rfl)
          | exact (memberPhaseOps_kinds x hx).2.2
          | (rcases List.mem_singleton.mp hx with rfl; rfl)

/-- C2 counterexample: with one stale pool and one stale health monitor and
an empty desired config, the pass issues the pool delete before the
health-monitor delete, so health-monitor deletes/creates do not all precede
every pool operation. -/
theorem C2_counterexample :
    ¬ MonitorPhasePrecedesPools (apply_config_partition "p" [] exStateStale) := by
  intro h
  have ht : apply_config_partition "p" [] exStateStale =
      [Op.poolDelete "p" "stale-pool", Op.hcDelete "p" "stale-hc" "http",
       Op.nodeCleanup "p"] := by decide
  have h10 := h 1 0 (Op.hcDelete "p" "stale-hc" "http")
    (Op.poolDelete "p" "stale-pool") (by rw [ht]; rfl) (by rw [ht]; rfl)
    rfl rfl
  omega

/-- C2 witness: on a concrete pass the health-monitor create (index 0)
precedes the pool create (index 1). -/
theorem C2_witness :
    (apply_config_partition "p" [("app-a_10.0.0.1_80", exService)]
        exStateEmpty)[0]? = some (Op.hcCreate "p" exHealthRecord) ∧
    (apply_config_partition "p" [("app-a_10.0.0.1_80", exService)]
        exStateEmpty)[1]? =
      some (Op.poolCreate "p" "app-a_10.0.0.1_80" exService.pool) ∧
    (0 : Nat) < 1 := by
  refine ⟨by decide, by decide, ?_⟩
  exact (C2_monitor_phase_order "p" [("app-a_10.0.0.1_80", exService)]
      exStateEmpty).1 0 1 (Op.hcCreate "p" exHealthRecord)
    (Op.poolCreate "p" "app-a_10.0.0.1_80" exService.pool) (by decide)
    (by decide) rfl rfl

/-- C8: every iApp name in the intersection of the desired and actual iApp
lists gets an update issued unconditionally, whose payload is
`iapp_build_definition` recomputed from the service's current member
(node) list. -/
theorem C8_iapp_update_unconditional (partition : String)
    (config : List (String × ServiceConfig)) (st : PartitionState)
    (name : String) (svc : ServiceConfig)
    (hmem : (name, svc) ∈ config) (hpart : svc.partition = partition)
    (hiapp : svc.iapp.isSome = true) (hact : name ∈ st.iapps) :
    Op.iappUpdate partition name (iapp_build_definition svc) ∈
      apply_config_partition partition config st := by
  unfold apply_config_partition
  apply List.mem_flatten.mpr
  refine ⟨((iappEntries partition config).filter fun e =>
      decide (e.1 ∈ st.iapps)).map
      (fun e => Op.iappUpdate partition e.1 (iapp_build_definition e.2)),
      ?_, ?_⟩
  · unfold applyPhases
    exact List.mem_cons_of_mem _
      (List.mem_cons_of_mem _ (List.mem_cons_self _ _))
  · apply List.mem_map.mpr
    refine ⟨(name, svc), ?_, rfl⟩
    apply List.mem_filter.mpr
    refine ⟨?_, by simpa using hact⟩
    unfold iappEntries
    apply List.mem_filter.mpr
    exact ⟨hmem, by simp [hpart, hiapp]⟩

/-- C8 witness: the concrete iApp-managed service present on both sides
gets its update, with the payload rebuilt from its current member list. -/
theorem C8_witness :
    ("svc-i_iapp_8080", exIappService) ∈
      [("svc-i_iapp_8080", exIappService)] ∧
    Op.iappUpdate "p" "svc-i_iapp_8080" (iapp_build_definition exIappService) ∈
      apply_config_partition "p" [("svc-i_iapp_8080", exIappService)]
        exStateIapp :=
  ⟨List.mem_singleton.mpr rfl,
   C8_iapp_update_unconditional "p" [("svc-i_iapp_8080", exIappService)]
     exStateIapp "svc-i_iapp_8080" exIappService (List.mem_singleton.mpr rfl)
     rfl rfl (by decide)⟩

/-- The candidate list left by the member scan: for a duplicate-free node
list, exactly the nodes never referenced by a scanned member. -/
theorem sweepMembers_fst (partition : String) (ns : String → NodeDesc)
    (ms : List String) :
    ∀ nl : List String, nl.Nodup → ∀ n : String,
      (n ∈ (sweepMembers partition ns nl ms).1 ↔
        n ∈ nl ∧ n ∉ ms.map memberNodeName) := by
  induction ms with
  | nil =>
    intro nl hnd n
    simp [sweepMembers]
  | cons m ms ih =>
    intro nl hnd n
    by_cases hm : memberNodeName m ∈ nl
    · have hfst : (sweepMembers partition ns nl (m :: ms)).1 =
          (sweepMembers partition ns (nl.erase (memberNodeName m)) ms).1 := by
        simp only [sweepMembers, if_pos hm]
        split <;> rfl
      rw [hfst, ih _ (hnd.erase _), List.Nodup.mem_erase_iff hnd]
      simp only [List.map_cons, List.mem_cons]
      constructor
      · rintro ⟨⟨hne, hnl⟩, hnm⟩
        exact ⟨hnl, fun h => h.elim hne hnm⟩
      · rintro ⟨hnl, hn⟩
        exact ⟨⟨fun he => hn (Or.inl he), hnl⟩, fun hmem => hn (Or.inr hmem)⟩
    · have hfst : (sweepMembers partition ns nl (m :: ms)).1 =
          (sweepMembers partition ns nl ms).1 := by
        simp only [sweepMembers, if_neg hm]
      rw [hfst, ih _ hnd]
      simp only [List.map_cons, List.mem_cons]
      constructor
      · rintro ⟨hnl, hnm⟩
        refine ⟨hnl, ?_⟩
        rintro (rfl | h)
        · exact hm hnl
        · exact hnm h
      · rintro ⟨hnl, hn⟩
        exact ⟨hnl, fun h => hn (Or.inr h)⟩

/-- Every operation the member scan emits is a node modify to
user-up / user-enabled. -/
theorem sweepMembers_ops_shape (partition : String) (ns : String → NodeDesc)
    (ms : List String) :
    ∀ nl : List String, ∀ x ∈ (sweepMembers partition ns nl ms).2,
      ∃ nm, x = Op.nodeModify partition nm
        { state := "user-up", session := "user-enabled" } := by
  induction ms with
  | nil =>
    intro nl x hx
    simp [sweepMembers] at hx
  | cons m ms ih =>
    intro nl x hx
    simp only [sweepMembers] at hx
    split at hx
    · split at hx
      · exact ih _ x hx
      · rcases List.mem_cons.mp hx with rfl | hx'
        · exact ⟨_, rfl⟩
        · exact ih _ x hx'
    · exact ih _ x hx

/-- The member scan modifies a node exactly when it is in the candidate
list, referenced by some scanned member, and not up/unchecked with an
enabled session. -/
theorem sweepMembers_modify_mem (partition : String) (ns : String → NodeDesc)
    (ms : List String) :
    ∀ nl : List String, nl.Nodup → ∀ n : String,
      (Op.nodeModify partition n
          { state := "user-up", session := "user-enabled" } ∈
        (sweepMembers partition ns nl ms).2 ↔
        n ∈ nl ∧ n ∈ ms.map memberNodeName ∧
          shouldSkipNode (ns n) = false) := by
  induction ms with
  | nil =>
    intro nl hnd n
    simp [sweepMembers]
  | cons m ms ih =>
    intro nl hnd n
    by_cases hm : memberNodeName m ∈ nl
    · by_cases hs : shouldSkipNode (ns (memberNodeName m)) = true
      · have hsnd : (sweepMembers partition ns nl (m :: ms)).2 =
            (sweepMembers partition ns (nl.erase (memberNodeName m)) ms).2 := by
          simp only [sweepMembers, if_pos hm, if_pos hs]
        rw [hsnd, ih _ (hnd.erase _), List.Nodup.mem_erase_iff hnd]
        simp only [List.map_cons, List.mem_cons]
        constructor
        · rintro ⟨⟨hne, hnl⟩, hmem, hskip⟩
          exact ⟨hnl, Or.inr hmem, hskip⟩
        · rintro ⟨hnl, hor, hskip⟩
          rcases hor with rfl | hmem
          · rw [hs] at hskip
            cases hskip
          · refine ⟨⟨?_, hnl⟩, hmem, hskip⟩
            rintro rfl
            rw [hs] at hskip
            cases hskip
      · have hsnd : (sweepMembers partition ns nl (m :: ms)).2 =
            Op.nodeModify partition (memberNodeName m)
                { state := "user-up", session := "user-enabled" } ::
              (sweepMembers partition ns (nl.erase (memberNodeName m)) ms).2 := by
          simp only [sweepMembers, if_pos hm, if_neg hs]
        rw [hsnd, List.mem_cons, ih _ (hnd.erase _),
          List.Nodup.mem_erase_iff hnd]
        simp only [List.map_cons, List.mem_cons, Op.nodeModify.injEq]
        constructor
        · rintro (⟨-, rfl, -⟩ | ⟨⟨hne, hnl⟩, hmem, hskip⟩)
          · exact ⟨hm, Or.inl rfl, by simpa using hs⟩
          · exact ⟨hnl, Or.inr hmem, hskip⟩
        · rintro ⟨hnl, hor, hskip⟩
          rcases hor with rfl | hmem
          · exact Or.inl ⟨trivial, rfl, trivial⟩
          · by_cases hne : n = memberNodeName m
            · subst hne
              exact Or.inl ⟨trivial, rfl, trivial⟩
            · exact Or.inr ⟨⟨hne, hnl⟩, hmem, hskip⟩
    · have hsnd : (sweepMembers partition ns nl (m :: ms)).2 =
          (sweepMembers partition ns nl ms).2 := by
        simp only [sweepMembers, if_neg hm]
      rw [hsnd, ih _ hnd]
      simp only [List.map_cons, List.mem_cons]
      constructor
      · rintro ⟨hnl, hmem, hskip⟩
        exact ⟨hnl, Or.inr hmem, hskip⟩
      · rintro ⟨hnl, hor, hskip⟩
        rcases hor with rfl | hmem
        · exact absurd hnl hm
        · exact ⟨hnl, hmem, hskip⟩

/-- C3: after the node-cleanup sweep of a partition (with its
duplicate-free node list), a node is deleted iff it was referenced by no
pool member across all pools; every referenced node is retained, and a
retained node is modified to user-up / user-enabled exactly when it is not
(up or unchecked with an enabled session). -/
theorem C3_node_gc (partition : String) (node_list : List String)
    (pools : List (String × List String)) (ns : String → NodeDesc)
    (hnd : node_list.Nodup) :
    (∀ n, Op.nodeDelete partition n ∈
        cleanup_nodes partition node_list pools ns ↔
      n ∈ node_list ∧ n ∉ (pools.flatMap Prod.snd).map memberNodeName) ∧
    (∀ n, Op.nodeModify partition n
        { state := "user-up", session := "user-enabled" } ∈
        cleanup_nodes partition node_list pools ns ↔
      n ∈ node_list ∧ n ∈ (pools.flatMap Prod.snd).map memberNodeName ∧
        shouldSkipNode (ns n) = false) := by
  constructor
  · intro n
    simp only [cleanup_nodes, List.mem_append]
    constructor
    · rintro (h | h)
      · obtain ⟨nm, hEq⟩ := sweepMembers_ops_shape partition ns _ node_list _ h
        simp at hEq
      · obtain ⟨nm, hmem, hEq⟩ := List.mem_map.mp h
        have hnn : nm = n := by
          simpa using hEq
        rw [hnn, sweepMembers_fst partition ns _ node_list hnd n] at hmem
        exact hmem
    · intro h
      right
      apply List.mem_map.mpr
      refine ⟨n, ?_, rfl⟩
      rw [sweepMembers_fst partition ns _ node_list hnd n]
      exact h
  · intro n
    simp only [cleanup_nodes, List.mem_append]
    constructor
    · rintro (h | h)
      · rw [sweepMembers_modify_mem partition ns _ node_list hnd n] at h
        exact h
      · obtain ⟨nm, -, hEq⟩ := List.mem_map.mp h
        simp at hEq
    · intro h
      left
      rw [sweepMembers_modify_mem partition ns _ node_list hnd n]
      exact h

/-- C3 witness: with nodes 1, 2, 3 and members referencing 1 and 2, the
sweep deletes node 3, retains node 1 untouched (up with an enabled session),
and re-enables node 2 (user-down / user-disabled). -/
theorem C3_witness :
    (["10.0.0.1", "10.0.0.2", "10.0.0.3"] : List String).Nodup ∧
    Op.nodeDelete "p" "10.0.0.3" ∈
      cleanup_nodes "p" ["10.0.0.1", "10.0.0.2", "10.0.0.3"]
        [("pool1", ["10.0.0.1:80", "10.0.0.2:80"])] exNodeStates ∧
    Op.nodeDelete "p" "10.0.0.1" ∉
      cleanup_nodes "p" ["10.0.0.1", "10.0.0.2", "10.0.0.3"]
        [("pool1", ["10.0.0.1:80", "10.0.0.2:80"])] exNodeStates ∧
    Op.nodeModify "p" "10.0.0.2"
        { state := "user-up", session := "user-enabled" } ∈
      cleanup_nodes "p" ["10.0.0.1", "10.0.0.2", "10.0.0.3"]
        [("pool1", ["10.0.0.1:80", "10.0.0.2:80"])] exNodeStates ∧
    Op.nodeModify "p" "10.0.0.1"
        { state := "user-up", session := "user-enabled" } ∉
      cleanup_nodes "p" ["10.0.0.1", "10.0.0.2", "10.0.0.3"]
        [("pool1", ["10.0.0.1:80", "10.0.0.2:80"])] exNodeStates := by
  have h := C3_node_gc "p" ["10.0.0.1", "10.0.0.2", "10.0.0.3"]
    [("pool1", ["10.0.0.1:80", "10.0.0.2:80"])] exNodeStates (by decide)
  refine ⟨by decide, ?_, ?_, ?_, ?_⟩
  · exact (h.1 "10.0.0.3").mpr (by decide)
  · intro hdel
    have hc := (h.1 "10.0.0.1").mp hdel
    revert hc
    decide
  · exact (h.2 "10.0.0.2").mpr (by decide)
  · intro hmod
    have hc := (h.2 "10.0.0.1").mp hmod
    revert hc
    decide
